import Mathlib

/-!
Verification development for the SU-MIMO beamforming evaluation scenario
(`src/scratch/evaluate_11ay_su_mimo.cc`).

The scenario is a set of event callbacks over mutable globals plus CSV trace
writers.  We embed:

* the mutable globals of the file (`csv`, `kBestCombinations`,
  `numberOfTxCombinationsRequested`, `useAwvs`, `beamformedLinks`,
  `firstDti`, `suMimoCompleted`) as a `Globals` record;
* each trace callback as a function on `Globals` (and a file store for the
  callbacks that write CSV files), returning the updated state together with
  the external-layer requests it issues (`Output`);
* the CSV sinks as an association list from file names to lists of rows.
  `AsciiTraceHelper::CreateFileStream` opens the file with `std::ios::out`,
  which truncates any existing content; `createFileStream` models that.

Numeric conventions: simulation `Time` values are nanosecond counts (ns-3
stores times as 64-bit integer nanoseconds; `Seconds (0.6)` is
600000000 ns), `uint8_t`/`uint16_t` arithmetic is `Nat` arithmetic reduced
`% 256` / `% 65536` where the code stores into those widths, and `double`
SNR ratios are modelled as `ℚ` (only comparisons and pass-through happen in
this file).  `RatioToDb` is an external conversion; a written dB value is
kept symbolically as `Cell.db ratio` (the cell remembers the ratio the
conversion was applied to).
-/

namespace SuMimoEval

/-- One cell of a CSV data row.  `db r` stands for the external
`RatioToDb (r)` conversion applied to the ratio `r`. -/
inductive Cell where
  | nat (n : Nat)
  | str (s : String)
  | db (ratio : ℚ)
deriving DecidableEq, Repr

/-- A line of a trace file: either a header line (list of column names) or a
data row (list of cells). -/
inductive FileRow where
  | header (cols : List String)
  | data (cells : List Cell)
deriving DecidableEq, Repr

/-- The trace sinks: file name to file content, in creation order. -/
abbrev FileStore := List (String × List FileRow)

/-- Content of a named file (empty if the file was never created). -/
def getFile : FileStore → String → List FileRow
  | [], _ => []
  | e :: fs, name => if e.1 = name then e.2 else getFile fs name

/-- Replace the content of a named file (creating it if absent). -/
def setFile : FileStore → String → List FileRow → FileStore
  | [], name, rows => [(name, rows)]
  | e :: fs, name, rows =>
      if e.1 = name then (name, rows) :: fs else e :: setFile fs name rows

/-- `AsciiTraceHelper::CreateFileStream` opens with `std::ios::out`,
truncating existing content. -/
def createFileStream (fs : FileStore) (name : String) : FileStore :=
  setFile fs name []

/-- Append one line to a file (a `<<` sequence ended by `std::endl`). -/
def writeRow (fs : FileStore) (name : String) (row : FileRow) : FileStore :=
  setFile fs name (getFile fs name ++ [row])

/-- The mutable globals of `evaluate_11ay_su_mimo.cc` that the beamforming
callbacks read or write.  The first four are set by the command-line parser
and never assigned afterwards; the last three are the beamforming state. -/
structure Globals where
  csv : Bool
  kBestCombinations : Nat
  numberOfTxCombinationsRequested : Nat
  useAwvs : Bool
  beamformedLinks : Nat
  firstDti : Bool
  suMimoCompleted : Bool
deriving DecidableEq, Repr

/-- The globals at program start (initializers at file scope). -/
def initGlobals : Globals :=
  { csv := false
    kBestCombinations := 10
    numberOfTxCombinationsRequested := 10
    useAwvs := false
    beamformedLinks := 0
    firstDti := true
    suMimoCompleted := false }

/-- The access period reported in `SlsCompletionAttrbitutes`;
only `CHANNEL_ACCESS_DTI` is distinguished by the code. -/
inductive AccessPeriod where
  | dti
  | other
deriving DecidableEq, Repr

/-- The callback events delivered by the external MAC layer to the handlers
of this file.  `slsCompleted` carries the access period of the completed
sweep, `dtiStarted` carries the association state of the STA and the current
simulation time in nanoseconds.  The remaining completion events do not
touch the beamforming globals; they are listed so that runs range over every
callback kind. -/
inductive FlagEvent where
  | slsCompleted (accessPeriod : AccessPeriod)
  | dtiStarted (associated : Bool) (now : Nat)
  | sisoPhaseMeasurements
  | sisoPhaseCompleted
  | mimoCandidatesSelected
  | mimoPhaseMeasurements
  | mimoPhaseCompleted
deriving DecidableEq, Repr

/-- External-layer requests issued (scheduled) by the handlers. -/
inductive Output where
  | performTxssTxop
  | startSuMimoBeamforming (isInitiator : Bool) (antennas : List Nat) (useAwvsFlag : Bool)
  | logMimoPhaseComplete
deriving DecidableEq, Repr

/-- Whether an output is the `StartSuMimoBeamforming` request. -/
def isStart : Output → Bool
  | .startSuMimoBeamforming _ _ _ => true
  | _ => false

/-- Whether an output is the `Perform_TXSS_TXOP` call. -/
def isTxss : Output → Bool
  | .performTxssTxop => true
  | _ => false

/-- `SLSCompleted`, restricted to its effect on the globals: the
`beamformedLinks` counter (a `uint8_t`) is incremented only when CSV mode is
off and the completed sweep belongs to the DTI access period. -/
def stepSls (g : Globals) (ap : AccessPeriod) : Globals :=
  if g.csv = false ∧ ap = AccessPeriod.dti then
    { g with beamformedLinks := (g.beamformedLinks + 1) % 256 }
  else g

/-- `DataTransmissionIntervalStarted` (bound to the STA's `DTIStarted`
trace).  `ants` is `GetTotalAntennaIdList ()` of the initiator codebook, an
external collaborator.  First `if`: issue the initial TXSS TXOP once; second
`if`: schedule `StartSuMimoBeamforming (bssid, true, antennas, false)` when
exactly two DTI links are beamformed, the time exceeds `Seconds (0.6)`
(600000000 ns) and SU-MIMO training has not completed. -/
def stepDti (ants : List Nat) (g : Globals) (associated : Bool) (now : Nat) :
    Globals × List Output :=
  let g1 := if associated = true ∧ g.firstDti = true then { g with firstDti := false } else g
  let out1 : List Output :=
    if associated = true ∧ g.firstDti = true then [Output.performTxssTxop] else []
  if g1.beamformedLinks = 2 ∧ 600000000 < now ∧ g1.suMimoCompleted = false then
    (g1, out1 ++ [Output.startSuMimoBeamforming true ants false])
  else (g1, out1)

/-- `SuMimoMimoPhaseComplete`: prints the completion message and sets
`suMimoCompleted` unconditionally. -/
def stepMimoComplete (g : Globals) : Globals × List Output :=
  ({ g with suMimoCompleted := true }, [Output.logMimoPhaseComplete])

/-- One delivered callback.  The SISO/MIMO measurement, SISO completion and
candidate-selection handlers do not read or write any of these globals
except by reading the configuration fields, so on `Globals` they are
identities. -/
def stepFlags (ants : List Nat) (g : Globals) : FlagEvent → Globals × List Output
  | .slsCompleted ap => (stepSls g ap, [])
  | .dtiStarted assoc now => stepDti ants g assoc now
  | .mimoPhaseCompleted => stepMimoComplete g
  | _ => (g, [])

/-- Deliver a sequence of callbacks, accumulating the issued requests. -/
def runFlags (ants : List Nat) : Globals → List FlagEvent → Globals × List Output
  | g, [] => (g, [])
  | g, e :: es =>
      let p := stepFlags ants g e
      let q := runFlags ants p.1 es
      (q.1, p.2 ++ q.2)

/-! ### Trace tables

Each handler that exports a table is embedded with its file name, header
columns and row cells taken field by field from the `<<` sequences of the
source. -/

/-- Header of the shared SLS results file, written once in `main`. -/
def slsHeaderCols : List String :=
  ["SRC_ID", "DST_ID", "TRACE_IDX", "ANTENNA_ID_1", "SECTOR_ID_1", "AWV_ID_1",
   "ANTENNA_ID_2", "SECTOR_ID_2", "AWV_ID_2", "ROLE", "BSS_ID", "SNR", "Timestamp"]

/-- The row appended by `SLSCompleted` for one sweep completion
(`srcNodeID+1, dstNodeID+1, traceIdx, sectorID, antennaID, role,
apNodeId+1, now-in-ns`). -/
def slsCompletedRow (src dst traceIdx sectorID antennaID role apNodeId now : Nat) :
    List Cell :=
  [Cell.nat (src + 1), Cell.nat (dst + 1), Cell.nat traceIdx,
   Cell.nat sectorID, Cell.nat antennaID, Cell.nat role,
   Cell.nat (apNodeId + 1), Cell.nat now]

/-- `SU_MIMO_SNR_MAP`: key tuple to the ordered SNR samples of the tested
AWVs (one entry per `(idx, rxAntennaId, txAntennaId)` key, in map iteration
order). -/
abbrev SuMimoSnrMap := List ((Nat × Nat × Nat) × List ℚ)

/-- File written by `SuMimoSisoPhaseMeasurements`. -/
def sisoMeasFileName (src : Nat) : String :=
  "SuMimoSisoPhaseMeasurements_" ++ toString (src + 1) ++ ".csv"

/-- Header of the SISO-phase measurement table. -/
def sisoMeasHeaderCols : List String :=
  ["SRC_ID", "DST_ID", "TRACE_IDX", "RX_ANTENNA_ID", "TX_ANTENNA_ID",
   "TX_SECTOR_ID", "SNR", "Timestamp"]

/-- Data rows of one `SuMimoSisoPhaseMeasurements` event: for each map entry
and each SNR sample, the AWV counter starts at 1 and the sector id is
`awv / edmgTrnN` (integer division). -/
def sisoMeasRows (src dst traceIdx now : Nat) (m : SuMimoSnrMap) (edmgTrnN : Nat) :
    List (List Cell) :=
  (m.map (fun entry =>
    entry.2.enum.map (fun ie =>
      [Cell.nat (src + 1), Cell.nat (dst + 1), Cell.nat traceIdx,
       Cell.nat entry.1.2.1, Cell.nat entry.1.2.2,
       Cell.nat ((ie.1 + 1) / edmgTrnN), Cell.db ie.2, Cell.nat now]))).flatten

/-- `SuMimoSisoPhaseMeasurements`: re-creates the per-source file (the
stream is constructed inside the handler, truncating any previous content),
writes the header, then one row per measured AWV. -/
def suMimoSisoPhaseMeasurements (fs : FileStore) (src dst traceIdx now : Nat)
    (measurementsMap : SuMimoSnrMap) (edmgTrnN : Nat) : FileStore :=
  let name := sisoMeasFileName src
  let fs1 := writeRow (createFileStream fs name) name (FileRow.header sisoMeasHeaderCols)
  (sisoMeasRows src dst traceIdx now measurementsMap edmgTrnN).foldl
    (fun acc r => writeRow acc name (FileRow.data r)) fs1

/-- `MIMO_FEEDBACK_MAP`: key tuple `(get0, get1, get2)` to the reported
feedback SNR, in map iteration order. -/
abbrev MimoFeedbackMap := List ((Nat × Nat × Nat) × ℚ)

/-- File written by `SuMimoSisoPhaseComplete`. -/
def sisoResultsFileName (src : Nat) : String :=
  "SuMimoSisoPhaseResults_" ++ toString (src + 1) ++ ".csv"

/-- Header of the SISO-phase feedback results table. -/
def sisoResultsHeaderCols : List String :=
  ["SRC_ID", "DST_ID", "TRACE_IDX", "RX_ANTENNA_ID", "TX_ANTENNA_ID",
   "TX_SECTOR_ID", "SNR", "Timestamp"]

/-- Data rows of one `SuMimoSisoPhaseComplete` event: the key's `get<1>` is
written as RX antenna, `get<0>` as TX antenna and `get<2>` as TX sector. -/
def sisoResultsRows (src dst traceIdx now : Nat) (m : MimoFeedbackMap) :
    List (List Cell) :=
  m.map (fun entry =>
    [Cell.nat (src + 1), Cell.nat (dst + 1), Cell.nat traceIdx,
     Cell.nat entry.1.2.1, Cell.nat entry.1.1, Cell.nat entry.1.2.2,
     Cell.db entry.2, Cell.nat now])

/-- `SuMimoSisoPhaseComplete`: writes the feedback table, invokes the
external `FindKBestCombinations` (abstracted as `ranker`, over an arbitrary
result type `γ`) with the global `kBestCombinations` and exactly the
delivered feedback map, then requests `StartSuMimoMimoPhase` with the
resulting shortlist, the global `numberOfTxCombinationsRequested` and the
global `useAwvs` flag.  (When `useAwvs` is set the codebook side effect
`AppendAwvsForSuMimoBFT_27` runs between the two calls; it does not alter
the shortlist.)  We return, besides the file store, the argument tuple of
the ranker invocation and the issued MIMO-phase request. -/
def suMimoSisoPhaseComplete {γ : Type}
    (ranker : Nat → Nat → Nat → MimoFeedbackMap → γ) (g : Globals)
    (fs : FileStore) (src dst traceIdx now : Nat) (feedbackMap : MimoFeedbackMap)
    (numberOfTxAntennas numberOfRxAntennas : Nat) :
    FileStore × (Nat × Nat × Nat × MimoFeedbackMap) × (γ × Nat × Bool) :=
  let name := sisoResultsFileName src
  let fs1 := writeRow (createFileStream fs name) name (FileRow.header sisoResultsHeaderCols)
  let fs2 := (sisoResultsRows src dst traceIdx now feedbackMap).foldl
    (fun acc r => writeRow acc name (FileRow.data r)) fs1
  let mimoCandidates :=
    ranker g.kBestCombinations numberOfTxAntennas numberOfRxAntennas feedbackMap
  (fs2,
   (g.kBestCombinations, numberOfTxAntennas, numberOfRxAntennas, feedbackMap),
   (mimoCandidates, g.numberOfTxCombinationsRequested, g.useAwvs))

/-! ### MIMO candidate tables (`SuMimoMimoCandidatesSelected`) -/

/-- `Antenna2SectorList`: a `std::map` from antenna id to its selected
sector list, kept in iteration (key) order. -/
abbrev Antenna2SectorList := List (Nat × List Nat)

/-- `std::vector::at` with a `Nat` index: `std::out_of_range` becomes
`Except.error`. -/
def atNat (l : List α) (i : Nat) : Except Unit α :=
  if h : i < l.length then Except.ok (l.get ⟨i, h⟩) else Except.error ()

/-- `std::vector::at` with an index computed in `int` arithmetic: a negative
index converts to a huge `size_t` and throws. -/
def atInt (l : List α) (i : Int) : Except Unit α :=
  if h : 0 ≤ i ∧ i.toNat < l.length then Except.ok (l.get ⟨i.toNat, h.2⟩)
  else Except.error ()

/-- Sequence a list of fallible computations, stopping on the first error
(the loop body throws out of the handler). -/
def mapExcept (f : α → Except Unit β) : List α → Except Unit (List β)
  | [] => Except.ok []
  | a :: as =>
      match f a with
      | Except.error u => Except.error u
      | Except.ok b =>
          match mapExcept f as with
          | Except.error u => Except.error u
          | Except.ok bs => Except.ok (b :: bs)

/-- The `ANTENNA_IDi,SECTOR_IDi` header pairs for `i = 1..n`, in loop
order. -/
def candHeaderPairs : Nat → List String
  | 0 => []
  | n + 1 => candHeaderPairs n ++
      ["ANTENNA_ID" ++ toString (n + 1), "SECTOR_ID" ++ toString (n + 1)]

/-- Header of a MIMO Tx/Rx candidates table for `n` antennas. -/
def candHeaderCols (n : Nat) : List String :=
  ["SRC_ID", "DST_ID", "TRACE_IDX"] ++ candHeaderPairs n

/-- One candidates row: id cells, then for each map entry its antenna id and
`second.at (i)`. -/
def candRow (src dst traceIdx : Nat) (cands : Antenna2SectorList) (i : Nat) :
    Except Unit (List Cell) :=
  match mapExcept (fun e =>
      match atNat e.2 i with
      | Except.error u => Except.error u
      | Except.ok s => Except.ok [Cell.nat e.1, Cell.nat s]) cands with
  | Except.error u => Except.error u
  | Except.ok blocks =>
      Except.ok ([Cell.nat (src + 1), Cell.nat (dst + 1), Cell.nat traceIdx]
                 ++ blocks.flatten)

/-- Write the candidate rows for the given indices, stopping at the first
out-of-range access. -/
def writeCandRows (src dst traceIdx : Nat) (cands : Antenna2SectorList)
    (name : String) : FileStore → List Nat → Except Unit FileStore
  | fs, [] => Except.ok fs
  | fs, i :: is =>
      match candRow src dst traceIdx cands i with
      | Except.error u => Except.error u
      | Except.ok r =>
          writeCandRows src dst traceIdx cands name (writeRow fs name (FileRow.data r)) is

/-- Possible outcomes of `SuMimoMimoCandidatesSelected`:
dereferencing `begin ()` of an empty map is undefined behavior, a failing
`.at` throws `std::out_of_range`. -/
inductive CandOutcome where
  | undefinedBehavior
  | atFailure
  | ok (fs : FileStore)
deriving DecidableEq, Repr

/-- File of the Tx candidates table. -/
def mimoTxCandFileName (src : Nat) : String :=
  "SuMimoMimoTxCandidates_" ++ toString (src + 1) ++ ".csv"

/-- File of the Rx candidates table. -/
def mimoRxCandFileName (src : Nat) : String :=
  "SuMimoMimoRxCandidates_" ++ toString (src + 1) ++ ".csv"

/-- `SuMimoMimoCandidatesSelected`: `numberOfAntennas` is
`uint8_t (txCandidates.size ())` and is used for both headers;
`numberOfCandidates` is `uint16_t (begin ()->second.size ())`, recomputed
from the Rx map for the Rx table.  Each table's stream is created inside the
handler (truncating), the header is written before the `begin ()`
dereference. -/
def suMimoMimoCandidatesSelected (fs : FileStore) (src dst traceIdx : Nat)
    (txCandidates rxCandidates : Antenna2SectorList) : CandOutcome :=
  let numberOfAntennas := txCandidates.length % 256
  let txName := mimoTxCandFileName src
  let fsTx := writeRow (createFileStream fs txName) txName
      (FileRow.header (candHeaderCols numberOfAntennas))
  match txCandidates with
  | [] => CandOutcome.undefinedBehavior
  | t0 :: _ =>
    match writeCandRows src dst traceIdx txCandidates txName fsTx
        (List.range (t0.2.length % 65536)) with
    | Except.error _ => CandOutcome.atFailure
    | Except.ok fs1 =>
      let rxName := mimoRxCandFileName src
      let fsRx := writeRow (createFileStream fs1 rxName) rxName
          (FileRow.header (candHeaderCols numberOfAntennas))
      match rxCandidates with
      | [] => CandOutcome.undefinedBehavior
      | r0 :: _ =>
        match writeCandRows src dst traceIdx rxCandidates rxName fsRx
            (List.range (r0.2.length % 65536)) with
        | Except.error _ => CandOutcome.atFailure
        | Except.ok fs2 => CandOutcome.ok fs2

/-- Content of a file in an `ok` outcome (empty otherwise); lets concrete
facts about the written tables be stated without an existential. -/
def candOutcomeFile : CandOutcome → String → List FileRow
  | CandOutcome.ok fs, name => getFile fs name
  | _, _ => []

/-! ### MIMO phase measurements (`SuMimoMimoPhaseMeasurements`)

The handler drains the `SNR_MEASUREMENT_AWV_IDs_QUEUE`, a
`std::priority_queue` over `(minStreamSnr, MEASUREMENT_AWV_IDs)` pairs
compared lexicographically, so `top ()` is always a maximal element.  We
model the queue as the list of its elements and the `top/pop` loop as
repeated removal of a maximal-key element (ties are broken arbitrarily by
the heap; we take the first maximal-key element, which the claims leave
unconstrained). -/

/-- `MEASUREMENT_AWV_IDs`: the Tx AWV id and the per-receive-configuration
`(key, rxAwvId)` pairs. -/
abbrev MeasurementAwvIds := Nat × List (Nat × Nat)

/-- `MIMO_SNR_LIST`: each element carries a tag and the per-stream SNR
samples. -/
abbrev MimoSnrList := List (Nat × List ℚ)

/-- Remove one maximal-key element from the queue; `none` iff empty. -/
def popMax : List (ℚ × MeasurementAwvIds) →
    Option ((ℚ × MeasurementAwvIds) × List (ℚ × MeasurementAwvIds))
  | [] => none
  | x :: xs =>
      match popMax xs with
      | none => some (x, [])
      | some (m, rest) =>
          if m.1 ≤ x.1 then some (x, xs) else some (m, x :: rest)

/-- Fuel-indexed drain loop; one `popMax` per unit of fuel.  Since `popMax`
removes exactly one element, `l.length` units of fuel empty the queue. -/
def drainFuel : Nat → List (ℚ × MeasurementAwvIds) → List (ℚ × MeasurementAwvIds)
  | 0, _ => []
  | fuel + 1, l =>
      match popMax l with
      | none => []
      | some (m, rest) => m :: drainFuel fuel rest

/-- Drain the queue: the sequence of `top ()` values of the
`while (!minSnr.empty ()) { top; pop }` loop. -/
def drain (l : List (ℚ × MeasurementAwvIds)) : List (ℚ × MeasurementAwvIds) :=
  drainFuel l.length l

/-- The external codebook resolvers used while formatting MIMO rows:
`GetMimoConfigFromRxAwvId` / `GetMimoConfigFromTxAwvId`, returning
`((antennaId, sectorId), awvId)` per stream. -/
structure MimoExternals where
  rxConfig : List (Nat × Nat) → List ((Nat × Nat) × Nat)
  txConfig : Nat → List ((Nat × Nat) × Nat)

/-- The `TX_ANTENNA_IDi,TX_SECTOR_IDi,TX_AWV_IDi` header triples, `i = 1..n`. -/
def txHeaderTriples : Nat → List String
  | 0 => []
  | n + 1 => txHeaderTriples n ++
      ["TX_ANTENNA_ID" ++ toString (n + 1), "TX_SECTOR_ID" ++ toString (n + 1),
       "TX_AWV_ID" ++ toString (n + 1)]

/-- The `RX_ANTENNA_IDi,RX_SECTOR_IDi,RX_AWV_IDi` header triples, `i = 1..n`. -/
def rxHeaderTriples : Nat → List String
  | 0 => []
  | n + 1 => rxHeaderTriples n ++
      ["RX_ANTENNA_ID" ++ toString (n + 1), "RX_SECTOR_ID" ++ toString (n + 1),
       "RX_AWV_ID" ++ toString (n + 1)]

/-- Header of the MIMO-phase measurement table: id columns, Tx triples, Rx
triples, `nRx * nTx` `SNR` columns, and `min_Stream_SNR` last. -/
def mimoMeasHeaderCols (nTx nRx : Nat) : List String :=
  ["SRC_ID", "DST_ID", "TRACE_IDX"] ++ txHeaderTriples nTx ++ rxHeaderTriples nRx
    ++ List.replicate (nRx * nTx) "SNR" ++ ["min_Stream_SNR"]

/-- File written by `SuMimoMimoPhaseMeasurements`. -/
def mimoMeasFileName (src : Nat) : String :=
  "SuMimoMimoPhaseMeasurements_" ++ toString (src + 1) ++ ".csv"

/-- The `(antennaId, sectorId, awvId)` cells of `combination.at (i)` for
`i = 0..n-1`. -/
def tripleCells (comb : List ((Nat × Nat) × Nat)) (n : Nat) : Except Unit (List Cell) :=
  match mapExcept (fun i =>
      match atNat comb i with
      | Except.error u => Except.error u
      | Except.ok c => Except.ok [Cell.nat c.1.1, Cell.nat c.1.2, Cell.nat c.2])
      (List.range n) with
  | Except.error u => Except.error u
  | Except.ok blocks => Except.ok blocks.flatten

/-- The `nTx * nRx` SNR cells: `measurements.at (j).second.at (snrIndex)`
with `snrIndex` running row-major over `(i, j)`. -/
def snrMatrixCells (measurements : MimoSnrList) (nTx nRx : Nat) :
    Except Unit (List Cell) :=
  match mapExcept (fun i =>
      match mapExcept (fun j =>
          match atNat measurements j with
          | Except.error u => Except.error u
          | Except.ok m =>
              match atNat m.2 (i * nRx + j) with
              | Except.error u => Except.error u
              | Except.ok v => Except.ok (Cell.db v)) (List.range nRx) with
      | Except.error u => Except.error u
      | Except.ok cs => Except.ok cs) (List.range nTx) with
  | Except.error u => Except.error u
  | Except.ok css => Except.ok css.flatten

/-- Build one MIMO-phase row for the queue element `e = (minStreamSnr,
awvId)`.  The per-receive measurements are gathered with the `int`-typed
index `(txId - 1) * rxCombinationsTested + rxId.second - 1`; any failing
`.at` throws (the row and the rest of the loop are abandoned).  The final
cell is `RatioToDb (minSnr.top ().first)`. -/
def mimoRowCells (ext : MimoExternals) (src dst traceIdx : Nat)
    (mimoMeasurements : MimoSnrList) (nTx nRx rxCombinationsTested : Nat)
    (e : ℚ × MeasurementAwvIds) : Except Unit (List Cell) :=
  let rxCombination := ext.rxConfig e.2.2
  let txCombination := ext.txConfig e.2.1
  let txId : Int := e.2.1
  match mapExcept (fun rxId =>
      atInt mimoMeasurements ((txId - 1) * rxCombinationsTested + (rxId.2 : Int) - 1))
      e.2.2 with
  | Except.error u => Except.error u
  | Except.ok measurements =>
      match tripleCells txCombination nTx with
      | Except.error u => Except.error u
      | Except.ok txCells =>
          match tripleCells rxCombination nRx with
          | Except.error u => Except.error u
          | Except.ok rxCells =>
              match snrMatrixCells measurements nTx nRx with
              | Except.error u => Except.error u
              | Except.ok snrCells =>
                  Except.ok ([Cell.nat (src + 1), Cell.nat (dst + 1), Cell.nat traceIdx]
                             ++ txCells ++ rxCells ++ snrCells ++ [Cell.db e.1])

/-- The data rows the drain loop manages to emit: one per drained element
until the first failing lookup aborts the loop. -/
def emittedRows (build : (ℚ × MeasurementAwvIds) → Except Unit (List Cell)) :
    List (ℚ × MeasurementAwvIds) → List (List Cell)
  | [] => []
  | e :: rest =>
      match build e with
      | Except.ok cells => cells :: emittedRows build rest
      | Except.error _ => []

/-- The drain loop, writing each built row; a failing lookup stops the loop
(`false` reports the abandoned run). -/
def writeLoop (build : (ℚ × MeasurementAwvIds) → Except Unit (List Cell))
    (name : String) : FileStore → List (ℚ × MeasurementAwvIds) → FileStore × Bool
  | fs, [] => (fs, true)
  | fs, e :: rest =>
      match build e with
      | Except.ok cells => writeLoop build name (writeRow fs name (FileRow.data cells)) rest
      | Except.error _ => (fs, false)

/-- `SuMimoMimoPhaseMeasurements`: re-creates the per-source file
(truncating), writes the header, then drains the priority queue writing one
row per combination, best minimum-stream SNR first. -/
def suMimoMimoPhaseMeasurements (ext : MimoExternals) (fs : FileStore)
    (src dst traceIdx : Nat) (mimoMeasurements : MimoSnrList)
    (nTx nRx rxCombinationsTested : Nat)
    (minSnr : List (ℚ × MeasurementAwvIds)) : FileStore × Bool :=
  let name := mimoMeasFileName src
  let fs1 := writeRow (createFileStream fs name) name
      (FileRow.header (mimoMeasHeaderCols nTx nRx))
  writeLoop (mimoRowCells ext src dst traceIdx mimoMeasurements nTx nRx rxCombinationsTested)
    name fs1 (drain minSnr)

/-- The `min_Stream_SNR` value of a data row (its trailing dB cell). -/
def rowMinSnr : FileRow → Option ℚ
  | FileRow.data cells =>
      match cells.getLast? with
      | some (Cell.db r) => some r
      | _ => none
  | FileRow.header _ => none

/-- The `min_Stream_SNR` column of a file, read top to bottom. -/
def minSnrColumn (rows : List FileRow) : List ℚ :=
  rows.filterMap rowMinSnr

/-! ### Concrete instances used in scenarios, witnesses and counterexamples -/

/-- A two-antenna id list, as `GetTotalAntennaIdList` yields for the default
`numStreams = 2` configuration. -/
def ants0 : List Nat := [1, 2]

/-- State after two data-period sector-sweep completions (CSV off). -/
def gTwoPrior : Globals :=
  (runFlags ants0 initGlobals
    [FlagEvent.slsCompleted AccessPeriod.dti,
     FlagEvent.slsCompleted AccessPeriod.dti]).1

/-- State after a single data-period sector-sweep completion (CSV off). -/
def gOnePrior : Globals :=
  (runFlags ants0 initGlobals [FlagEvent.slsCompleted AccessPeriod.dti]).1

/-- A state whose session has already completed SU-MIMO training. -/
def gDone : Globals :=
  { initGlobals with beamformedLinks := 2, firstDti := false, suMimoCompleted := true }

/-- Trivial codebook resolvers (never consulted when the queue is empty). -/
def extEmpty : MimoExternals :=
  { rxConfig := fun _ => [], txConfig := fun _ => [] }

/-- A small three-element priority queue with distinct keys. -/
def queue3 : List (ℚ × MeasurementAwvIds) :=
  [(1, (1, [])), (3, (2, [])), (2, (3, []))]

/-- A state with CSV output mode enabled. -/
def gCsv : Globals := { initGlobals with csv := true }

/-- Event sequence with a second DTI start before any MIMO completion. -/
def evsDouble : List FlagEvent :=
  [FlagEvent.slsCompleted AccessPeriod.dti, FlagEvent.slsCompleted AccessPeriod.dti,
   FlagEvent.dtiStarted true 700000000, FlagEvent.dtiStarted true 800000000]

/-- File store after a first SISO-measurement event (one AWV measured). -/
def fsAfterFirst : FileStore :=
  suMimoSisoPhaseMeasurements [] 0 1 0 100 [((0, 1, 2), [(5 : ℚ)])] 1

/-- The single data row the first SISO-measurement event writes. -/
def rowFirst : List Cell :=
  [Cell.nat 1, Cell.nat 2, Cell.nat 0, Cell.nat 1, Cell.nat 2, Cell.nat 1,
   Cell.db 5, Cell.nat 100]

/-- File store after a second SISO-measurement event for the same session. -/
def fsAfterSecond : FileStore :=
  suMimoSisoPhaseMeasurements fsAfterFirst 0 1 1 200 [((0, 3, 4), [(7 : ℚ)])] 1

/-! ## Helper lemmas -/

theorem getFile_setFile_same (fs : FileStore) (name : String) (rows : List FileRow) :
    getFile (setFile fs name rows) name = rows := by
  induction fs with
  | nil => simp [getFile, setFile]
  | cons e fs ih =>
      by_cases h : e.1 = name <;> simp [getFile, setFile, h, ih]

theorem getFile_setFile_other (fs : FileStore) (name other : String)
    (rows : List FileRow) (h : other ≠ name) :
    getFile (setFile fs name rows) other = getFile fs other := by
  have h' : ¬ (name = other) := fun he => h he.symm
  induction fs with
  | nil => simp [getFile, setFile, h']
  | cons e fs ih =>
      by_cases he : e.1 = name
      · simp [getFile, setFile, he, h']
      · by_cases heo : e.1 = other <;> simp [getFile, setFile, he, heo, h, ih]

theorem getFile_writeRow_same (fs : FileStore) (name : String) (row : FileRow) :
    getFile (writeRow fs name row) name = getFile fs name ++ [row] := by
  simp [writeRow, getFile_setFile_same]

theorem getFile_writeRow_other (fs : FileStore) (name other : String)
    (row : FileRow) (h : other ≠ name) :
    getFile (writeRow fs name row) other = getFile fs other := by
  simp [writeRow, getFile_setFile_other _ _ _ _ h]

theorem getFile_create_same (fs : FileStore) (name : String) :
    getFile (createFileStream fs name) name = [] := by
  simp [createFileStream, getFile_setFile_same]

theorem getFile_create_other (fs : FileStore) (name other : String) (h : other ≠ name) :
    getFile (createFileStream fs name) other = getFile fs other := by
  simp [createFileStream, getFile_setFile_other _ _ _ _ h]

theorem getFile_foldl_writeRow (rows : List (List Cell)) (fs : FileStore) (name : String) :
    getFile (rows.foldl (fun acc r => writeRow acc name (FileRow.data r)) fs) name
      = getFile fs name ++ rows.map FileRow.data := by
  induction rows generalizing fs with
  | nil => simp
  | cons r rows ih =>
      simp [ih, getFile_writeRow_same, List.append_assoc]

theorem getFile_foldl_writeRow_other (rows : List (List Cell)) (fs : FileStore)
    (name other : String) (h : other ≠ name) :
    getFile (rows.foldl (fun acc r => writeRow acc name (FileRow.data r)) fs) other
      = getFile fs other := by
  induction rows generalizing fs with
  | nil => simp
  | cons r rows ih => simp [ih, getFile_writeRow_other _ _ _ _ h]

theorem stepDti_state (ants : List Nat) (g : Globals) (assoc : Bool) (now : Nat) :
    (stepDti ants g assoc now).1.beamformedLinks = g.beamformedLinks
    ∧ (stepDti ants g assoc now).1.suMimoCompleted = g.suMimoCompleted
    ∧ (stepDti ants g assoc now).1.csv = g.csv
    ∧ (stepDti ants g assoc now).1.kBestCombinations = g.kBestCombinations
    ∧ (stepDti ants g assoc now).1.numberOfTxCombinationsRequested
        = g.numberOfTxCombinationsRequested
    ∧ (stepDti ants g assoc now).1.useAwvs = g.useAwvs
    ∧ (stepDti ants g assoc now).1.firstDti
        = (if assoc = true ∧ g.firstDti = true then false else g.firstDti) := by
  simp only [stepDti]
  split_ifs <;> simp_all

theorem stepDti_out (ants : List Nat) (g : Globals) (assoc : Bool) (now : Nat) :
    (stepDti ants g assoc now).2
      = (if assoc = true ∧ g.firstDti = true then [Output.performTxssTxop] else [])
        ++ (if g.beamformedLinks = 2 ∧ 600000000 < now ∧ g.suMimoCompleted = false
            then [Output.startSuMimoBeamforming true ants false] else []) := by
  simp only [stepDti]
  split_ifs <;> simp_all

theorem stepDti_start_count (ants : List Nat) (g : Globals) (assoc : Bool) (now : Nat) :
    (stepDti ants g assoc now).2.countP isStart
      = if g.beamformedLinks = 2 ∧ 600000000 < now ∧ g.suMimoCompleted = false
        then 1 else 0 := by
  rw [stepDti_out, List.countP_append]
  split_ifs <;> simp [isStart]

theorem stepDti_txss_count (ants : List Nat) (g : Globals) (assoc : Bool) (now : Nat) :
    (stepDti ants g assoc now).2.countP isTxss
      = if assoc = true ∧ g.firstDti = true then 1 else 0 := by
  rw [stepDti_out, List.countP_append]
  split_ifs <;> simp [isTxss]

theorem stepDti_start_mem (ants : List Nat) (g : Globals) (assoc : Bool) (now : Nat)
    (i : Bool) (as : List Nat) (fl : Bool)
    (h : Output.startSuMimoBeamforming i as fl ∈ (stepDti ants g assoc now).2) :
    i = true ∧ as = ants ∧ fl = false := by
  rw [stepDti_out] at h
  rcases List.mem_append.mp h with hm | hm <;> revert hm <;> split_ifs <;> simp_all

theorem stepFlags_config (ants : List Nat) (g : Globals) (e : FlagEvent) :
    (stepFlags ants g e).1.csv = g.csv
    ∧ (stepFlags ants g e).1.kBestCombinations = g.kBestCombinations
    ∧ (stepFlags ants g e).1.numberOfTxCombinationsRequested
        = g.numberOfTxCombinationsRequested
    ∧ (stepFlags ants g e).1.useAwvs = g.useAwvs := by
  cases e with
  | slsCompleted ap =>
      by_cases h : g.csv = false ∧ ap = AccessPeriod.dti <;>
        simp [stepFlags, stepSls, h]
  | dtiStarted assoc now =>
      obtain ⟨_, _, h3, h4, h5, h6, _⟩ := stepDti_state ants g assoc now
      exact ⟨h3, h4, h5, h6⟩
  | mimoPhaseCompleted => simp [stepFlags, stepMimoComplete]
  | sisoPhaseMeasurements => simp [stepFlags]
  | sisoPhaseCompleted => simp [stepFlags]
  | mimoCandidatesSelected => simp [stepFlags]
  | mimoPhaseMeasurements => simp [stepFlags]

theorem stepFlags_firstDti_mono (ants : List Nat) (g : Globals) (e : FlagEvent)
    (h : (stepFlags ants g e).1.firstDti = true) : g.firstDti = true := by
  cases e with
  | slsCompleted ap =>
      by_cases hc : g.csv = false ∧ ap = AccessPeriod.dti <;>
        simp [stepFlags, stepSls, hc] at h <;> exact h
  | dtiStarted assoc now =>
      obtain ⟨_, _, _, _, _, _, h7⟩ := stepDti_state ants g assoc now
      simp only [stepFlags] at h
      rw [h7] at h
      revert h
      split_ifs <;> simp_all
  | mimoPhaseCompleted => simpa [stepFlags, stepMimoComplete] using h
  | sisoPhaseMeasurements => simpa [stepFlags] using h
  | sisoPhaseCompleted => simpa [stepFlags] using h
  | mimoCandidatesSelected => simpa [stepFlags] using h
  | mimoPhaseMeasurements => simpa [stepFlags] using h

theorem stepFlags_completed_mono (ants : List Nat) (g : Globals) (e : FlagEvent)
    (h : g.suMimoCompleted = true) : (stepFlags ants g e).1.suMimoCompleted = true := by
  cases e with
  | slsCompleted ap =>
      by_cases hc : g.csv = false ∧ ap = AccessPeriod.dti <;>
        simp [stepFlags, stepSls, hc, h]
  | dtiStarted assoc now =>
      obtain ⟨_, h2, _⟩ := stepDti_state ants g assoc now
      show (stepDti ants g assoc now).1.suMimoCompleted = true
      rw [h2]
      exact h
  | mimoPhaseCompleted => simp [stepFlags, stepMimoComplete]
  | sisoPhaseMeasurements => simpa [stepFlags] using h
  | sisoPhaseCompleted => simpa [stepFlags] using h
  | mimoCandidatesSelected => simpa [stepFlags] using h
  | mimoPhaseMeasurements => simpa [stepFlags] using h

theorem stepFlags_start_zero_of_completed (ants : List Nat) (g : Globals) (e : FlagEvent)
    (h : g.suMimoCompleted = true) : (stepFlags ants g e).2.countP isStart = 0 := by
  cases e with
  | slsCompleted ap => simp [stepFlags]
  | dtiStarted assoc now =>
      rw [show (stepFlags ants g (FlagEvent.dtiStarted assoc now)).2
            = (stepDti ants g assoc now).2 from rfl, stepDti_start_count]
      simp [h]
  | mimoPhaseCompleted => simp [stepFlags, stepMimoComplete, isStart]
  | sisoPhaseMeasurements => simp [stepFlags]
  | sisoPhaseCompleted => simp [stepFlags]
  | mimoCandidatesSelected => simp [stepFlags]
  | mimoPhaseMeasurements => simp [stepFlags]

theorem runFlags_firstDti_mono (ants : List Nat) (g : Globals) (evs : List FlagEvent)
    (h : (runFlags ants g evs).1.firstDti = true) : g.firstDti = true := by
  induction evs generalizing g with
  | nil => simpa [runFlags] using h
  | cons e es ih =>
      simp only [runFlags] at h
      exact stepFlags_firstDti_mono ants g e (ih (stepFlags ants g e).1 h)

theorem runFlags_completed_mono (ants : List Nat) (g : Globals) (evs : List FlagEvent)
    (h : g.suMimoCompleted = true) : (runFlags ants g evs).1.suMimoCompleted = true := by
  induction evs generalizing g with
  | nil => simpa [runFlags] using h
  | cons e es ih =>
      simp only [runFlags]
      exact ih (stepFlags ants g e).1 (stepFlags_completed_mono ants g e h)

theorem runFlags_out_append (ants : List Nat) (g : Globals) (e : FlagEvent)
    (es : List FlagEvent) :
    (runFlags ants g (e :: es)).2
      = (stepFlags ants g e).2 ++ (runFlags ants (stepFlags ants g e).1 es).2 := rfl

theorem runFlags_start_zero_of_completed (ants : List Nat) (g : Globals)
    (evs : List FlagEvent) (h : g.suMimoCompleted = true) :
    (runFlags ants g evs).2.countP isStart = 0 := by
  induction evs generalizing g with
  | nil => simp [runFlags]
  | cons e es ih =>
      rw [runFlags_out_append, List.countP_append,
          stepFlags_start_zero_of_completed ants g e h,
          ih (stepFlags ants g e).1 (stepFlags_completed_mono ants g e h)]

theorem runFlags_txss_le (ants : List Nat) (g : Globals) (evs : List FlagEvent) :
    (runFlags ants g evs).2.countP isTxss ≤ if g.firstDti then 1 else 0 := by
  induction evs generalizing g with
  | nil => simp [runFlags]
  | cons e es ih =>
      rw [runFlags_out_append, List.countP_append]
      have hstep := ih (stepFlags ants g e).1
      cases e with
      | dtiStarted assoc now =>
          have hout := stepDti_txss_count ants g assoc now
          obtain ⟨_, _, _, _, _, _, h7⟩ := stepDti_state ants g assoc now
          by_cases hc : assoc = true ∧ g.firstDti = true
          · rw [show (stepFlags ants g (FlagEvent.dtiStarted assoc now)).2
                  = (stepDti ants g assoc now).2 from rfl, hout, if_pos hc]
            have : (stepFlags ants g (FlagEvent.dtiStarted assoc now)).1.firstDti = false := by
              rw [show (stepFlags ants g (FlagEvent.dtiStarted assoc now)).1
                    = (stepDti ants g assoc now).1 from rfl, h7, if_pos hc]
            rw [this] at hstep
            simp only [if_neg (by simp : ¬ (false = true))] at hstep
            simp [hc.2, Nat.le_zero.mp hstep]
          · rw [show (stepFlags ants g (FlagEvent.dtiStarted assoc now)).2
                  = (stepDti ants g assoc now).2 from rfl, hout, if_neg hc]
            have : (stepFlags ants g (FlagEvent.dtiStarted assoc now)).1.firstDti = g.firstDti := by
              rw [show (stepFlags ants g (FlagEvent.dtiStarted assoc now)).1
                    = (stepDti ants g assoc now).1 from rfl, h7, if_neg hc]
            rw [this] at hstep
            omega
      | slsCompleted ap =>
          have hfd : (stepFlags ants g (FlagEvent.slsCompleted ap)).1.firstDti = g.firstDti := by
            by_cases hc : g.csv = false ∧ ap = AccessPeriod.dti <;>
              simp [stepFlags, stepSls, hc]
          rw [hfd] at hstep
          simpa [stepFlags] using hstep
      | mimoPhaseCompleted =>
          have hfd : (stepFlags ants g FlagEvent.mimoPhaseCompleted).1.firstDti = g.firstDti := rfl
          rw [hfd] at hstep
          simpa [stepFlags, stepMimoComplete, isTxss] using hstep
      | sisoPhaseMeasurements => simpa [stepFlags] using ih g
      | sisoPhaseCompleted => simpa [stepFlags] using ih g
      | mimoCandidatesSelected => simpa [stepFlags] using ih g
      | mimoPhaseMeasurements => simpa [stepFlags] using ih g

theorem runFlags_txss_zero_of_first_false (ants : List Nat) (g : Globals)
    (evs : List FlagEvent) (h : g.firstDti = false) :
    (runFlags ants g evs).2.countP isTxss = 0 := by
  have hle := runFlags_txss_le ants g evs
  rw [h] at hle
  simpa using hle

theorem runFlags_csv_zero (ants : List Nat) (g : Globals) (evs : List FlagEvent)
    (hcsv : g.csv = true) (hz : g.beamformedLinks = 0) :
    (runFlags ants g evs).1.beamformedLinks = 0
    ∧ (runFlags ants g evs).2.countP isStart = 0 := by
  induction evs generalizing g with
  | nil => simp [runFlags, hz]
  | cons e es ih =>
      have hstep : (stepFlags ants g e).1.csv = g.csv := (stepFlags_config ants g e).1
      cases e with
      | slsCompleted ap =>
          have hkeep : stepSls g ap = g := by
            simp [stepSls, hcsv]
          have hred : runFlags ants g (FlagEvent.slsCompleted ap :: es)
              = ((runFlags ants g es).1, [] ++ (runFlags ants g es).2) := by
            simp only [runFlags, stepFlags, hkeep]
          rw [hred]
          obtain ⟨ha, hb⟩ := ih (g := g) hcsv hz
          exact ⟨ha, by simpa using hb⟩
      | dtiStarted assoc now =>
          rw [runFlags_out_append, List.countP_append]
          obtain ⟨h1, _, h3, _⟩ := stepDti_state ants g assoc now
          have hcount := stepDti_start_count ants g assoc now
          have hguard : ¬ (g.beamformedLinks = 2 ∧ 600000000 < now
              ∧ g.suMimoCompleted = false) := by
            rintro ⟨h2, _⟩
            rw [hz] at h2
            exact absurd h2 (by decide)
          rw [if_neg hguard] at hcount
          have hrest := ih (g := (stepFlags ants g (FlagEvent.dtiStarted assoc now)).1)
            (by rw [show (stepFlags ants g (FlagEvent.dtiStarted assoc now)).1
                  = (stepDti ants g assoc now).1 from rfl, h3, hcsv])
            (by rw [show (stepFlags ants g (FlagEvent.dtiStarted assoc now)).1
                  = (stepDti ants g assoc now).1 from rfl, h1, hz])
          refine ⟨hrest.1, ?_⟩
          rw [show (stepFlags ants g (FlagEvent.dtiStarted assoc now)).2
                = (stepDti ants g assoc now).2 from rfl, hcount, hrest.2]
      | mimoPhaseCompleted =>
          rw [runFlags_out_append, List.countP_append]
          have hrest := ih (g := (stepFlags ants g FlagEvent.mimoPhaseCompleted).1)
            (by simpa [stepFlags, stepMimoComplete] using hcsv)
            (by simpa [stepFlags, stepMimoComplete] using hz)
          exact ⟨hrest.1, by simpa [stepFlags, stepMimoComplete, isStart] using hrest.2⟩
      | sisoPhaseMeasurements =>
          simpa [runFlags_out_append, stepFlags] using ih (g := g) hcsv hz
      | sisoPhaseCompleted =>
          simpa [runFlags_out_append, stepFlags] using ih (g := g) hcsv hz
      | mimoCandidatesSelected =>
          simpa [runFlags_out_append, stepFlags] using ih (g := g) hcsv hz
      | mimoPhaseMeasurements =>
          simpa [runFlags_out_append, stepFlags] using ih (g := g) hcsv hz

theorem popMax_eq_none {l : List (ℚ × MeasurementAwvIds)}
    (h : popMax l = none) : l = [] := by
  cases l with
  | nil => rfl
  | cons x xs =>
      simp only [popMax] at h
      cases hxs : popMax xs with
      | none => rw [hxs] at h; simp at h
      | some p =>
          obtain ⟨m, rest⟩ := p
          rw [hxs] at h
          by_cases hle : m.1 ≤ x.1 <;> simp [hle] at h

theorem popMax_length :
    ∀ {l : List (ℚ × MeasurementAwvIds)} {m rest},
      popMax l = some (m, rest) → rest.length + 1 = l.length := by
  intro l
  induction l with
  | nil => intro m rest h; simp [popMax] at h
  | cons x xs ih =>
      intro m rest h
      simp only [popMax] at h
      cases hxs : popMax xs with
      | none =>
          rw [hxs] at h
          have hnil := popMax_eq_none hxs
          subst hnil
          simp at h
          obtain ⟨rfl, rfl⟩ := h
          rfl
      | some p =>
          obtain ⟨m', rest'⟩ := p
          rw [hxs] at h
          have hlen : rest'.length + 1 = xs.length := ih hxs
          by_cases hle : m'.1 ≤ x.1
          · simp [hle] at h
            obtain ⟨rfl, rfl⟩ := h
            rfl
          · simp [hle] at h
            obtain ⟨rfl, rfl⟩ := h
            simp only [List.length_cons]
            omega

theorem popMax_mem :
    ∀ {l : List (ℚ × MeasurementAwvIds)} {m rest},
      popMax l = some (m, rest) → m ∈ l := by
  intro l
  induction l with
  | nil => intro m rest h; simp [popMax] at h
  | cons x xs ih =>
      intro m rest h
      simp only [popMax] at h
      cases hxs : popMax xs with
      | none =>
          rw [hxs] at h
          simp at h
          simp [h.1]
      | some p =>
          obtain ⟨m', rest'⟩ := p
          rw [hxs] at h
          by_cases hle : m'.1 ≤ x.1
          · simp [hle] at h
            simp [h.1]
          · simp [hle] at h
            exact List.mem_cons_of_mem x (h.1 ▸ ih hxs)

theorem popMax_isMax :
    ∀ {l : List (ℚ × MeasurementAwvIds)} {m rest},
      popMax l = some (m, rest) → ∀ y ∈ l, y.1 ≤ m.1 := by
  intro l
  induction l with
  | nil => intro m rest h; simp [popMax] at h
  | cons x xs ih =>
      intro m rest h y hy
      simp only [popMax] at h
      cases hxs : popMax xs with
      | none =>
          rw [hxs] at h
          have hnil := popMax_eq_none hxs
          subst hnil
          simp at h hy
          simp [h.1, hy]
      | some p =>
          obtain ⟨m', rest'⟩ := p
          rw [hxs] at h
          have hmax := ih hxs
          by_cases hle : m'.1 ≤ x.1
          · simp [hle] at h
            obtain ⟨rfl, rfl⟩ := h
            rcases List.mem_cons.mp hy with rfl | hyx
            · exact le_refl _
            · exact le_trans (hmax y hyx) hle
          · simp [hle] at h
            obtain ⟨rfl, rfl⟩ := h
            rcases List.mem_cons.mp hy with rfl | hyx
            · exact le_of_lt (lt_of_not_le hle)
            · exact hmax y hyx

theorem popMax_rest_subset :
    ∀ {l : List (ℚ × MeasurementAwvIds)} {m rest},
      popMax l = some (m, rest) → ∀ y ∈ rest, y ∈ l := by
  intro l
  induction l with
  | nil => intro m rest h; simp [popMax] at h
  | cons x xs ih =>
      intro m rest h y hy
      simp only [popMax] at h
      cases hxs : popMax xs with
      | none =>
          rw [hxs] at h
          simp at h
          obtain ⟨rfl, rfl⟩ := h
          simp at hy
      | some p =>
          obtain ⟨m', rest'⟩ := p
          rw [hxs] at h
          by_cases hle : m'.1 ≤ x.1
          · simp [hle] at h
            obtain ⟨rfl, rfl⟩ := h
            exact List.mem_cons_of_mem x hy
          · simp [hle] at h
            obtain ⟨rfl, rfl⟩ := h
            rcases List.mem_cons.mp hy with rfl | hy'
            · exact List.mem_cons_self _ _
            · exact List.mem_cons_of_mem x (ih hxs y hy')

theorem drainFuel_nil (f : Nat) : drainFuel f [] = [] := by
  cases f <;> simp [drainFuel, popMax]

theorem drainFuel_congr :
    ∀ (f f' : Nat) (l : List (ℚ × MeasurementAwvIds)),
      l.length ≤ f → l.length ≤ f' → drainFuel f l = drainFuel f' l := by
  intro f
  induction f with
  | zero =>
      intro f' l h _
      have hl : l = [] := List.eq_nil_of_length_eq_zero (Nat.le_zero.mp h)
      subst hl
      rw [drainFuel_nil, drainFuel_nil]
  | succ f ihf =>
      intro f' l h h'
      cases hp : popMax l with
      | none =>
          have hl := popMax_eq_none hp
          subst hl
          rw [drainFuel_nil, drainFuel_nil]
      | some p =>
          obtain ⟨m, rest⟩ := p
          have hlen := popMax_length hp
          cases f' with
          | zero =>
              exfalso
              omega
          | succ f'' =>
              simp only [drainFuel, hp]
              rw [ihf f'' rest (by omega) (by omega)]

theorem drain_pop {l : List (ℚ × MeasurementAwvIds)} {m rest}
    (hp : popMax l = some (m, rest)) : drain l = m :: drain rest := by
  have hlen := popMax_length hp
  unfold drain
  rw [← hlen]
  simp only [drainFuel, hp]

theorem drain_nil : drain ([] : List (ℚ × MeasurementAwvIds)) = [] := rfl

theorem drain_subset :
    ∀ (n : Nat) (l : List (ℚ × MeasurementAwvIds)), l.length ≤ n →
      ∀ y ∈ drain l, y ∈ l := by
  intro n
  induction n with
  | zero =>
      intro l h y hy
      have hl : l = [] := List.eq_nil_of_length_eq_zero (Nat.le_zero.mp h)
      subst hl
      rw [drain_nil] at hy
      simp at hy
  | succ n ihn =>
      intro l h y hy
      cases hp : popMax l with
      | none =>
          have hl := popMax_eq_none hp
          subst hl
          rw [drain_nil] at hy
          simp at hy
      | some p =>
          obtain ⟨m, rest⟩ := p
          have hlen := popMax_length hp
          rw [drain_pop hp] at hy
          rcases List.mem_cons.mp hy with rfl | hy'
          · exact popMax_mem hp
          · exact popMax_rest_subset hp y (ihn rest (by omega) y hy')

theorem drain_chain :
    ∀ (n : Nat) (l : List (ℚ × MeasurementAwvIds)), l.length ≤ n →
      List.Chain' (fun a b => b.1 ≤ a.1) (drain l) := by
  intro n
  induction n with
  | zero =>
      intro l h
      have hl : l = [] := List.eq_nil_of_length_eq_zero (Nat.le_zero.mp h)
      subst hl
      rw [drain_nil]
      exact List.chain'_nil
  | succ n ihn =>
      intro l h
      cases hp : popMax l with
      | none =>
          have hl := popMax_eq_none hp
          subst hl
          rw [drain_nil]
          exact List.chain'_nil
      | some p =>
          obtain ⟨m, rest⟩ := p
          have hlen := popMax_length hp
          rw [drain_pop hp]
          rw [List.chain'_cons']
          refine ⟨?_, ihn rest (by omega)⟩
          intro y hy
          have hmem : y ∈ drain rest := List.mem_of_mem_head? hy
          have hrest : y ∈ rest := drain_subset rest.length rest (le_refl _) y hmem
          exact popMax_isMax hp y (popMax_rest_subset hp y hrest)

theorem drain_chain' (l : List (ℚ × MeasurementAwvIds)) :
    List.Chain' (fun a b => b.1 ≤ a.1) (drain l) :=
  drain_chain l.length l (le_refl _)

theorem getLast?_append_singleton (l : List α) (a : α) :
    (l ++ [a]).getLast? = some a := by
  rw [List.getLast?_append_cons]
  rfl

theorem chain'_take {α : Type} {R : α → α → Prop} :
    ∀ (l : List α) (n : Nat), List.Chain' R l → List.Chain' R (l.take n) := by
  intro l
  induction l with
  | nil => intro n _; simp
  | cons x xs ih =>
      intro n h
      cases n with
      | zero => simp
      | succ n =>
          rw [List.take_succ_cons, List.chain'_cons']
          rw [List.chain'_cons'] at h
          refine ⟨?_, ih n h.2⟩
          intro y hy
          apply h.1
          cases xs with
          | nil => simp at hy
          | cons z zs =>
              cases n with
              | zero => simp at hy
              | succ n =>
                  rw [List.take_succ_cons] at hy
                  simpa using hy

theorem writeLoop_getFile (build : (ℚ × MeasurementAwvIds) → Except Unit (List Cell))
    (name : String) :
    ∀ (l : List (ℚ × MeasurementAwvIds)) (fs : FileStore),
      getFile (writeLoop build name fs l).1 name
        = getFile fs name ++ (emittedRows build l).map FileRow.data := by
  intro l
  induction l with
  | nil => intro fs; simp [writeLoop, emittedRows]
  | cons e rest ih =>
      intro fs
      cases hb : build e with
      | ok cells =>
          simp [writeLoop, emittedRows, hb, ih, getFile_writeRow_same, List.append_assoc]
      | error u => simp [writeLoop, emittedRows, hb]

theorem writeLoop_getFile_other (build : (ℚ × MeasurementAwvIds) → Except Unit (List Cell))
    (name other : String) (h : other ≠ name) :
    ∀ (l : List (ℚ × MeasurementAwvIds)) (fs : FileStore),
      getFile (writeLoop build name fs l).1 other = getFile fs other := by
  intro l
  induction l with
  | nil => intro fs; simp [writeLoop]
  | cons e rest ih =>
      intro fs
      cases hb : build e with
      | ok cells => simp [writeLoop, hb, ih, getFile_writeRow_other _ _ _ _ h]
      | error u => simp [writeLoop, hb]

theorem minSnrColumn_header_cons (cols : List String) (rows : List FileRow) :
    minSnrColumn (FileRow.header cols :: rows) = minSnrColumn rows := by
  simp [minSnrColumn, rowMinSnr]

theorem mimoRowCells_last (ext : MimoExternals) (src dst traceIdx : Nat)
    (mm : MimoSnrList) (nTx nRx rct : Nat) (e : ℚ × MeasurementAwvIds)
    (r : List Cell) (h : mimoRowCells ext src dst traceIdx mm nTx nRx rct e = Except.ok r) :
    r.getLast? = some (Cell.db e.1) := by
  simp only [mimoRowCells] at h
  repeat' split at h
  all_goals first
    | exact Except.noConfusion h
    | (injection h with h2; subst h2; exact getLast?_append_singleton _ _)

theorem emittedRows_column
    (build : (ℚ × MeasurementAwvIds) → Except Unit (List Cell))
    (hlast : ∀ e r, build e = Except.ok r → r.getLast? = some (Cell.db e.1)) :
    ∀ l : List (ℚ × MeasurementAwvIds),
      ∃ k, (emittedRows build l).filterMap (fun cells => rowMinSnr (FileRow.data cells))
        = (l.map (fun e => e.1)).take k := by
  intro l
  induction l with
  | nil => exact ⟨0, by simp [emittedRows]⟩
  | cons e rest ih =>
      cases hb : build e with
      | error u => exact ⟨0, by simp [emittedRows, hb]⟩
      | ok cells =>
          obtain ⟨k, hk⟩ := ih
          refine ⟨k + 1, ?_⟩
          have hc : rowMinSnr (FileRow.data cells) = some e.1 := by
            simp [rowMinSnr, hlast e cells hb]
          simp [emittedRows, hb, hc, hk]

theorem minSnrColumn_map_data (rows : List (List Cell)) :
    minSnrColumn (rows.map FileRow.data)
      = rows.filterMap (fun cells => rowMinSnr (FileRow.data cells)) := by
  simp only [minSnrColumn, List.filterMap_map]
  rfl

theorem atNat_ok {α : Type} (l : List α) (i : Nat) (h : i < l.length) :
    ∃ b, atNat l i = Except.ok b :=
  ⟨l.get ⟨i, h⟩, by simp [atNat, h]⟩

theorem mapExcept_ok {α β : Type} (f : α → Except Unit β) :
    ∀ l : List α, (∀ a ∈ l, ∃ b, f a = Except.ok b) →
      ∃ bs, mapExcept f l = Except.ok bs := by
  intro l
  induction l with
  | nil => intro _; exact ⟨[], rfl⟩
  | cons a as ih =>
      intro h
      obtain ⟨b, hb⟩ := h a (List.mem_cons_self _ _)
      obtain ⟨bs, hbs⟩ := ih (fun x hx => h x (List.mem_cons_of_mem a hx))
      exact ⟨b :: bs, by simp [mapExcept, hb, hbs]⟩

theorem candRow_ok (src dst traceIdx : Nat) (cands : Antenna2SectorList) (i : Nat)
    (h : ∀ e ∈ cands, i < e.2.length) :
    ∃ r, candRow src dst traceIdx cands i = Except.ok r := by
  obtain ⟨bs, hbs⟩ := mapExcept_ok
    (fun e =>
      match atNat e.2 i with
      | Except.error u => Except.error u
      | Except.ok s => Except.ok [Cell.nat e.1, Cell.nat s]) cands
    (by
      intro e he
      obtain ⟨b, hb⟩ := atNat_ok e.2 i (h e he)
      exact ⟨[Cell.nat e.1, Cell.nat b], by simp [hb]⟩)
  refine ⟨[Cell.nat (src + 1), Cell.nat (dst + 1), Cell.nat traceIdx] ++ bs.flatten, ?_⟩
  simp [candRow, hbs]

theorem writeCandRows_ok (src dst traceIdx : Nat) (cands : Antenna2SectorList)
    (name : String) :
    ∀ (is : List Nat) (fs : FileStore),
      (∀ i ∈ is, ∀ e ∈ cands, i < e.2.length) →
      ∃ fs', writeCandRows src dst traceIdx cands name fs is = Except.ok fs' := by
  intro is
  induction is with
  | nil => intro fs _; exact ⟨fs, rfl⟩
  | cons i is ih =>
      intro fs h
      obtain ⟨r, hr⟩ := candRow_ok src dst traceIdx cands i
        (fun e he => h i (List.mem_cons_self _ _) e he)
      obtain ⟨fs', hfs'⟩ := ih (writeRow fs name (FileRow.data r))
        (fun j hj e he => h j (List.mem_cons_of_mem i hj) e he)
      exact ⟨fs', by simp [writeCandRows, hr, hfs']⟩

theorem runFlags_k (ants : List Nat) (g : Globals) (evs : List FlagEvent) :
    (runFlags ants g evs).1.kBestCombinations = g.kBestCombinations := by
  induction evs generalizing g with
  | nil => rfl
  | cons e es ih =>
      have := (stepFlags_config ants g e).2.1
      simp only [runFlags]
      rw [ih (stepFlags ants g e).1, this]

/-! ## Claim theorems -/

/-- C1: on every DTI-start event delivered to the STA, the
`StartSuMimoBeamforming` request (the SectorSweep to SisoDiscovery
transition) is issued if and only if the beamformed data-period
sector-sweep counter equals the threshold 2, the simulation time exceeds
0.6 s (600000000 ns) and SU-MIMO training has not already completed.  In
particular, after 2 prior data-period sweep completions and at time 0.7 s
the next DTI start triggers it; after only 1 prior completion it does
not. -/
theorem c1_dti_trigger :
    (∀ (ants : List Nat) (g : Globals) (assoc : Bool) (now : Nat),
      ((stepDti ants g assoc now).2.any isStart = true)
        ↔ (g.beamformedLinks = 2 ∧ 600000000 < now ∧ g.suMimoCompleted = false))
    ∧ (stepDti ants0 gTwoPrior true 700000000).2.any isStart = true
    ∧ (stepDti ants0 gOnePrior true 700000000).2.any isStart = false := by
  refine ⟨?_, by decide, by decide⟩
  intro ants g assoc now
  rw [stepDti_out, List.any_append]
  by_cases hc : g.beamformedLinks = 2 ∧ 600000000 < now ∧ g.suMimoCompleted = false <;>
    by_cases hf : assoc = true ∧ g.firstDti = true <;>
      simp [hc, hf, isStart]

/-- C4 counterexample: a second `MimoPhaseCompleted` event for an
already-complete session is processed exactly like a fresh completion: the
state is unchanged (idempotence holds) but the handler re-emits the normal
completion log — identical to the first completion's output — and produces
no anomaly record, contradicting the claim that it is reported as an
unexpected anomaly rather than re-processed as a normal completion. -/
theorem c4_counterexample :
    (stepMimoComplete gDone).1 = gDone
    ∧ (stepMimoComplete gDone).2 = (stepMimoComplete initGlobals).2
    ∧ (stepMimoComplete gDone).2 = [Output.logMimoPhaseComplete] := by decide

/-- C4 (amended): a MIMO-phase-completed event always sets the completed
flag and emits exactly the normal completion log; for an already-complete
session the state is unchanged (idempotent), but the duplicate event is
re-processed as a normal completion and no anomaly is recorded. -/
theorem c4_amended (g : Globals) :
    (stepMimoComplete g).1 = { g with suMimoCompleted := true }
    ∧ (stepMimoComplete g).2 = [Output.logMimoPhaseComplete]
    ∧ (g.suMimoCompleted = true → (stepMimoComplete g).1 = g) := by
  refine ⟨rfl, rfl, ?_⟩
  intro h
  cases g
  simp_all [stepMimoComplete]

/-- C4 witness: the amended idempotence at the concrete completed state. -/
theorem c4_witness : (stepMimoComplete gDone).1 = gDone :=
  (c4_amended gDone).2.2 rfl

/-- C6 counterexample: in the run with two sector-sweep completions and two
DTI starts after 0.6 s, with the MIMO-phase completion still outstanding,
`StartSuMimoBeamforming` is issued twice — refuting the claim that exactly
one such request is issued over the whole run. -/
theorem c6_counterexample :
    (runFlags ants0 initGlobals evsDouble).2.countP isStart = 2 := by decide

/-- C6 (amended): each DTI-start event issues at most one
`StartSuMimoBeamforming` request, every issued request carries the
initiator codebook's full antenna-identifier list (initiator flag set), no
request is issued once SU-MIMO training has completed, and from any
completed state no later event sequence issues one; however the request may
be re-issued on later DTI starts until the completion event arrives. -/
theorem c6_amended :
    ∀ (ants : List Nat) (g : Globals) (assoc : Bool) (now : Nat),
      (stepDti ants g assoc now).2.countP isStart ≤ 1
      ∧ (∀ (i : Bool) (as : List Nat) (fl : Bool),
          Output.startSuMimoBeamforming i as fl ∈ (stepDti ants g assoc now).2 →
            i = true ∧ as = ants ∧ fl = false)
      ∧ (g.suMimoCompleted = true → (stepDti ants g assoc now).2.countP isStart = 0)
      ∧ (∀ evs, g.suMimoCompleted = true →
          (runFlags ants g evs).2.countP isStart = 0) := by
  intro ants g assoc now
  refine ⟨?_, fun i as fl h => stepDti_start_mem ants g assoc now i as fl h, ?_, ?_⟩
  · rw [stepDti_start_count]
    split_ifs <;> omega
  · intro h
    rw [stepDti_start_count]
    simp [h]
  · intro evs h
    exact runFlags_start_zero_of_completed ants g evs h

/-- C6 witness: from the completed state a DTI start issues no request. -/
theorem c6_witness :
    (runFlags ants0 gDone [FlagEvent.dtiStarted true 700000000]).2.countP isStart = 0 :=
  (c6_amended ants0 gDone true 700000000).2.2.2 [FlagEvent.dtiStarted true 700000000] rfl

/-- C8: the training state never regresses over any callback sequence: the
first-DTI flag only moves from true to false, the SU-MIMO-completed flag
only from false to true, the initial TXSS sector sweep is issued at most
once (never re-issued once the flag is down), and from a completed state no
`StartSuMimoBeamforming` (and, once the sweep was issued, no TXSS) is ever
emitted again. -/
theorem c8_monotone :
    ∀ (ants : List Nat) (g : Globals) (evs : List FlagEvent),
      ((runFlags ants g evs).1.firstDti = true → g.firstDti = true)
      ∧ (g.suMimoCompleted = true → (runFlags ants g evs).1.suMimoCompleted = true)
      ∧ ((runFlags ants g evs).2.countP isTxss ≤ if g.firstDti then 1 else 0)
      ∧ (g.suMimoCompleted = true → (runFlags ants g evs).2.countP isStart = 0)
      ∧ (g.firstDti = false → (runFlags ants g evs).2.countP isTxss = 0) := by
  intro ants g evs
  exact ⟨runFlags_firstDti_mono ants g evs, runFlags_completed_mono ants g evs,
         runFlags_txss_le ants g evs, runFlags_start_zero_of_completed ants g evs,
         runFlags_txss_zero_of_first_false ants g evs⟩

/-- C8 witness: monotonicity of the completed flag at a concrete run. -/
theorem c8_witness :
    (runFlags ants0 gDone [FlagEvent.dtiStarted true 700000000]).1.suMimoCompleted = true :=
  (c8_monotone ants0 gDone [FlagEvent.dtiStarted true 700000000]).2.1 rfl

/-- C9: with CSV output mode enabled, `SLSCompleted` never increments the
beamformed-links counter (the whole block is under `if (!csv)`), so from the
initial counter value the trigger `beamformedLinks == 2` is never satisfied
and no event sequence ever issues `StartSuMimoBeamforming`. -/
theorem c9_csv_no_training :
    ∀ (ants : List Nat) (g : Globals) (evs : List FlagEvent),
      g.csv = true → g.beamformedLinks = 0 →
      (∀ ap, stepSls g ap = g)
      ∧ (runFlags ants g evs).1.beamformedLinks = 0
      ∧ (runFlags ants g evs).2.countP isStart = 0 := by
  intro ants g evs hcsv hz
  refine ⟨fun ap => by simp [stepSls, hcsv], ?_, ?_⟩
  · exact (runFlags_csv_zero ants g evs hcsv hz).1
  · exact (runFlags_csv_zero ants g evs hcsv hz).2

/-- C9 witness: a CSV-mode run with a data-period sweep completion and a
late DTI start issues no training request. -/
theorem c9_witness :
    (runFlags ants0 gCsv
      [FlagEvent.slsCompleted AccessPeriod.dti,
       FlagEvent.dtiStarted true 700000000]).2.countP isStart = 0 :=
  (c9_csv_no_training ants0 gCsv
    [FlagEvent.slsCompleted AccessPeriod.dti,
     FlagEvent.dtiStarted true 700000000] rfl rfl).2.2

/-- C2 counterexample: the SISO-measurement handler constructs its output
stream with `CreateFileStream` on every event, truncating the file; the row
written by a first event is gone from the file after a second event of the
same phase for the same session — refuting both "created once on the
session's first write and reused" and "a row emitted by an earlier event is
never rewritten or deleted by a later event of the same phase". -/
theorem c2_counterexample :
    FileRow.data rowFirst ∈ getFile fsAfterFirst (sisoMeasFileName 0)
    ∧ FileRow.data rowFirst ∉ getFile fsAfterSecond (sisoMeasFileName 0) := by decide

/-- C2 (amended): on each measurement event the handler re-creates the
phase's trace file; afterwards the file holds exactly the header followed by
that event's rows (prior content of the file is discarded), files with other
names are untouched, and within a single event writes are append-only.  This
holds for both the SISO-phase and the MIMO-phase measurement handlers. -/
theorem c2_amended :
    (∀ (fs : FileStore) (src dst ti now : Nat) (m : SuMimoSnrMap) (trnN : Nat),
      getFile (suMimoSisoPhaseMeasurements fs src dst ti now m trnN) (sisoMeasFileName src)
        = FileRow.header sisoMeasHeaderCols
            :: (sisoMeasRows src dst ti now m trnN).map FileRow.data
      ∧ ∀ other, other ≠ sisoMeasFileName src →
          getFile (suMimoSisoPhaseMeasurements fs src dst ti now m trnN) other
            = getFile fs other)
    ∧ (∀ (ext : MimoExternals) (fs : FileStore) (src dst ti : Nat) (mm : MimoSnrList)
        (nTx nRx rct : Nat) (q : List (ℚ × MeasurementAwvIds)),
      getFile (suMimoMimoPhaseMeasurements ext fs src dst ti mm nTx nRx rct q).1
          (mimoMeasFileName src)
        = FileRow.header (mimoMeasHeaderCols nTx nRx)
            :: (emittedRows (mimoRowCells ext src dst ti mm nTx nRx rct) (drain q)).map
                FileRow.data
      ∧ ∀ other, other ≠ mimoMeasFileName src →
          getFile (suMimoMimoPhaseMeasurements ext fs src dst ti mm nTx nRx rct q).1 other
            = getFile fs other) := by
  constructor
  · intro fs src dst ti now m trnN
    constructor
    · simp only [suMimoSisoPhaseMeasurements]
      rw [getFile_foldl_writeRow, getFile_writeRow_same, getFile_create_same]
      simp
    · intro other h
      simp only [suMimoSisoPhaseMeasurements]
      rw [getFile_foldl_writeRow_other _ _ _ _ h, getFile_writeRow_other _ _ _ _ h,
          getFile_create_other _ _ _ h]
  · intro ext fs src dst ti mm nTx nRx rct q
    constructor
    · simp only [suMimoMimoPhaseMeasurements]
      rw [writeLoop_getFile, getFile_writeRow_same, getFile_create_same]
      simp
    · intro other h
      simp only [suMimoMimoPhaseMeasurements]
      rw [writeLoop_getFile_other _ _ _ h, getFile_writeRow_other _ _ _ _ h,
          getFile_create_other _ _ _ h]

/-- C2 witness: the amended statement instantiated — a foreign file name is
untouched by the SISO-measurement handler. -/
theorem c2_witness :
    getFile (suMimoSisoPhaseMeasurements [] 0 1 0 100 [] 1) "snrValues.csv"
      = getFile ([] : FileStore) "snrValues.csv" :=
  (c2_amended.1 [] 0 1 0 100 [] 1).2 "snrValues.csv" (by decide)

/-- C3 counterexample: the MIMO-phase measurement table ends with the
`min_Stream_SNR` column and the MIMO Tx candidates table ends with the last
`SECTOR_ID` column — neither header has the mandated trailing `Timestamp`
column (shown on a concrete run of both handlers). -/
theorem c3_counterexample :
    getFile (suMimoMimoPhaseMeasurements extEmpty [] 0 1 0 [] 2 2 1 []).1
        (mimoMeasFileName 0)
      = [FileRow.header (mimoMeasHeaderCols 2 2)]
    ∧ (mimoMeasHeaderCols 2 2).getLast? = some "min_Stream_SNR"
    ∧ (mimoMeasHeaderCols 2 2).getLast? ≠ some "Timestamp"
    ∧ (candOutcomeFile
        (suMimoMimoCandidatesSelected [] 0 1 0 [(1, [7]), (2, [8])] [(1, [9]), (2, [6])])
        (mimoTxCandFileName 0)).head?
      = some (FileRow.header (candHeaderCols 2))
    ∧ (candHeaderCols 2).getLast? = some "SECTOR_ID2"
    ∧ (candHeaderCols 2).getLast? ≠ some "Timestamp" := by decide

/-- C3 (amended): the sector-sweep and SISO-phase tables (headers and data
rows) do end with the simulation timestamp, but the MIMO-phase measurement
table ends with the `min_Stream_SNR` column (its data rows with the dB value
of the minimum stream SNR), and the MIMO Tx/Rx candidate tables end with the
last antenna's `SECTOR_ID` column — no timestamp column. -/
theorem c3_amended :
    slsHeaderCols.getLast? = some "Timestamp"
    ∧ sisoMeasHeaderCols.getLast? = some "Timestamp"
    ∧ sisoResultsHeaderCols.getLast? = some "Timestamp"
    ∧ (∀ src dst ti sector antenna role apNode now,
        (slsCompletedRow src dst ti sector antenna role apNode now).getLast?
          = some (Cell.nat now))
    ∧ (∀ src dst ti now m trnN r, r ∈ sisoMeasRows src dst ti now m trnN →
        r.getLast? = some (Cell.nat now))
    ∧ (∀ src dst ti now m r, r ∈ sisoResultsRows src dst ti now m →
        r.getLast? = some (Cell.nat now))
    ∧ (∀ nTx nRx, (mimoMeasHeaderCols nTx nRx).getLast? = some "min_Stream_SNR")
    ∧ (∀ ext src dst ti mm nTx nRx rct e r,
        mimoRowCells ext src dst ti mm nTx nRx rct e = Except.ok r →
          r.getLast? = some (Cell.db e.1))
    ∧ (∀ n, 1 ≤ n →
        (candHeaderCols n).getLast? = some ("SECTOR_ID" ++ toString n)) := by
  refine ⟨rfl, rfl, rfl, fun _ _ _ _ _ _ _ _ => rfl, ?_, ?_, ?_, ?_, ?_⟩
  · intro src dst ti now m trnN r hr
    simp only [sisoMeasRows, List.mem_flatten, List.mem_map] at hr
    obtain ⟨l, ⟨entry, hentry, rfl⟩, hr⟩ := hr
    simp only [List.mem_map] at hr
    obtain ⟨ie, hie, rfl⟩ := hr
    rfl
  · intro src dst ti now m r hr
    simp only [sisoResultsRows, List.mem_map] at hr
    obtain ⟨entry, hentry, rfl⟩ := hr
    rfl
  · intro nTx nRx
    exact getLast?_append_singleton _ _
  · intro ext src dst ti mm nTx nRx rct e r h
    exact mimoRowCells_last ext src dst ti mm nTx nRx rct e r h
  · intro n hn
    cases n with
    | zero => exact absurd hn (by decide)
    | succ n =>
        simp only [candHeaderCols, candHeaderPairs]
        rw [List.getLast?_append_of_ne_nil _ (by simp), List.getLast?_append_cons]
        rfl

/-- C3 witness: the amended trailing-column fact for the two-antenna
candidates table. -/
theorem c3_witness : (candHeaderCols 2).getLast? = some ("SECTOR_ID" ++ toString 2) :=
  (c3_amended.2.2.2.2.2.2.2.2) 2 (by decide)

/-- C5: for every priority queue of MIMO measurements handed to the
MIMO-phase measurement handler (all-equal and all-distinct keys included),
the `min_Stream_SNR` column of the written table, read top to bottom, is
non-increasing; the drained sequence itself is non-increasing in its key,
and remains so under any monotone transform (such as the dB conversion). -/
theorem c5_minsnr_sorted :
    ∀ (ext : MimoExternals) (fs : FileStore) (src dst ti : Nat) (mm : MimoSnrList)
      (nTx nRx rct : Nat) (q : List (ℚ × MeasurementAwvIds)),
      List.Chain' (fun a b => b ≤ a)
        (minSnrColumn
          (getFile (suMimoMimoPhaseMeasurements ext fs src dst ti mm nTx nRx rct q).1
            (mimoMeasFileName src)))
      ∧ List.Chain' (fun a b => b.1 ≤ a.1) (drain q)
      ∧ (∀ f : ℚ → ℚ, Monotone f →
          List.Chain' (fun a b => b ≤ a) ((drain q).map (fun e => f e.1))) := by
  intro ext fs src dst ti mm nTx nRx rct q
  have hchain := drain_chain' q
  have hfile :
      getFile (suMimoMimoPhaseMeasurements ext fs src dst ti mm nTx nRx rct q).1
          (mimoMeasFileName src)
        = FileRow.header (mimoMeasHeaderCols nTx nRx)
            :: (emittedRows (mimoRowCells ext src dst ti mm nTx nRx rct) (drain q)).map
                FileRow.data := by
    simp only [suMimoMimoPhaseMeasurements]
    rw [writeLoop_getFile, getFile_writeRow_same, getFile_create_same]
    simp
  refine ⟨?_, hchain, ?_⟩
  · rw [hfile, minSnrColumn_header_cons, minSnrColumn_map_data]
    obtain ⟨k, hk⟩ := emittedRows_column _
      (fun e r h => mimoRowCells_last ext src dst ti mm nTx nRx rct e r h) (drain q)
    rw [hk]
    apply chain'_take
    rw [List.chain'_map]
    exact hchain
  · intro f hf
    rw [List.chain'_map]
    exact hchain.imp (fun a b hab => hf hab)

/-- C5 witness: the chain fact at a concrete three-element queue with the
identity transform. -/
theorem c5_witness :
    List.Chain' (fun a b => b ≤ a) ((drain queue3).map (fun e => id e.1)) :=
  (c5_minsnr_sorted extEmpty [] 0 1 0 [] 1 1 1 queue3).2.2 id monotone_id

/-- C7: on every SISO-phase-completed event the handler invokes the external
K-best selection exactly on the delivered feedback map with the session's
global `kBestCombinations`, and requests the MIMO evaluation sub-phase with
the resulting shortlist unmodified (together with the configured feedback
count and AWV flag); moreover no callback sequence ever changes
`kBestCombinations`. -/
theorem c7_siso_complete :
    ∀ (γ : Type) (ranker : Nat → Nat → Nat → MimoFeedbackMap → γ) (g : Globals)
      (fs : FileStore) (src dst ti now : Nat) (fb : MimoFeedbackMap) (nTx nRx : Nat),
      (suMimoSisoPhaseComplete ranker g fs src dst ti now fb nTx nRx).2.1
        = (g.kBestCombinations, nTx, nRx, fb)
      ∧ (suMimoSisoPhaseComplete ranker g fs src dst ti now fb nTx nRx).2.2
        = (ranker g.kBestCombinations nTx nRx fb,
           g.numberOfTxCombinationsRequested, g.useAwvs)
      ∧ getFile (suMimoSisoPhaseComplete ranker g fs src dst ti now fb nTx nRx).1
          (sisoResultsFileName src)
        = FileRow.header sisoResultsHeaderCols
            :: (sisoResultsRows src dst ti now fb).map FileRow.data
      ∧ (∀ (ants : List Nat) (evs : List FlagEvent),
          (runFlags ants g evs).1.kBestCombinations = g.kBestCombinations) := by
  intro γ ranker g fs src dst ti now fb nTx nRx
  refine ⟨rfl, rfl, ?_, fun ants evs => runFlags_k ants g evs⟩
  simp only [suMimoSisoPhaseComplete]
  rw [getFile_foldl_writeRow, getFile_writeRow_same, getFile_create_same]
  simp

/-- C10: the MIMO-candidates handler is safe whenever both maps are
non-empty and every antenna's sector list is at least as long as the first
antenna's (then every `.at (i)` is in range and the handler reaches `ok`);
dereferencing `begin ()` of an empty Tx map is undefined behavior. -/
theorem c10_candidates_safety :
    (∀ (fs : FileStore) (src dst ti : Nat) (t0 : Nat × List Nat)
       (txs : List (Nat × List Nat)) (r0 : Nat × List Nat) (rxs : List (Nat × List Nat)),
       (∀ e ∈ t0 :: txs, t0.2.length ≤ e.2.length) →
       (∀ e ∈ r0 :: rxs, r0.2.length ≤ e.2.length) →
       ∃ fs', suMimoMimoCandidatesSelected fs src dst ti (t0 :: txs) (r0 :: rxs)
         = CandOutcome.ok fs')
    ∧ (∀ (fs : FileStore) (src dst ti : Nat) (rx : Antenna2SectorList),
        suMimoMimoCandidatesSelected fs src dst ti [] rx
          = CandOutcome.undefinedBehavior) := by
  constructor
  · intro fs src dst ti t0 txs r0 rxs htx hrx
    have htx' : ∀ i ∈ List.range (t0.2.length % 65536), ∀ e ∈ t0 :: txs,
        i < e.2.length := by
      intro i hi e he
      have h1 : i < t0.2.length % 65536 := List.mem_range.mp hi
      have h2 := Nat.mod_le t0.2.length 65536
      have h3 := htx e he
      omega
    have hrx' : ∀ i ∈ List.range (r0.2.length % 65536), ∀ e ∈ r0 :: rxs,
        i < e.2.length := by
      intro i hi e he
      have h1 : i < r0.2.length % 65536 := List.mem_range.mp hi
      have h2 := Nat.mod_le r0.2.length 65536
      have h3 := hrx e he
      omega
    obtain ⟨fs1, hfs1⟩ := writeCandRows_ok src dst ti (t0 :: txs) (mimoTxCandFileName src)
      (List.range (t0.2.length % 65536))
      (writeRow (createFileStream fs (mimoTxCandFileName src)) (mimoTxCandFileName src)
        (FileRow.header (candHeaderCols ((t0 :: txs).length % 256)))) htx'
    obtain ⟨fs2, hfs2⟩ := writeCandRows_ok src dst ti (r0 :: rxs) (mimoRxCandFileName src)
      (List.range (r0.2.length % 65536))
      (writeRow (createFileStream fs1 (mimoRxCandFileName src)) (mimoRxCandFileName src)
        (FileRow.header (candHeaderCols ((t0 :: txs).length % 256)))) hrx'
    refine ⟨fs2, ?_⟩
    simp only [suMimoMimoCandidatesSelected, hfs1, hfs2]
  · intro fs src dst ti rx
    rfl

/-- C10 witness: the safety conclusion at concrete two-antenna candidate
maps with one sector per antenna. -/
theorem c10_witness :
    ∃ fs', suMimoMimoCandidatesSelected [] 0 1 0 [(1, [7]), (2, [8])] [(1, [9]), (2, [6])]
      = CandOutcome.ok fs' :=
  c10_candidates_safety.1 [] 0 1 0 (1, [7]) [(2, [8])] (1, [9]) [(2, [6])]
    (by decide) (by decide)

end SuMimoEval
